import Mathlib

/-!
Shallow embedding of `eval.py` (the RedditHumorDetection evaluation script) and
proofs of the specification claims about it.

Conventions used throughout:
* CSV rows are `List String`; a parsed file is `List (List String)`.
* Python exceptions (`IndexError`, `KeyError`, `FileNotFoundError`,
  `ZeroDivisionError`, numpy's `AxisError`) become `Except String`.
* `torch` long tensors become `List ℤ` (1-D) or `List (List ℤ)` (2-D);
  floating-point values (losses, logits) become `ℚ`.
* The transformer model is an opaque collaborator: a function from the model
  input bundle to `(mean loss, logits)`; the logits matrix has one row per
  batch example.
-/

set_option maxHeartbeats 1000000
set_option maxRecDepth 4096

/-- Python list indexing `l[i]`: raises `IndexError` when out of range. -/
def pyListGet {α : Type} (l : List α) (i : ℕ) : Except String α :=
  match l.get? i with
  | some x => Except.ok x
  | none => Except.error "IndexError: list index out of range"

/-- Python tuple indexing `t[i]` (the `DataLoader` batch is a tuple of stacked
tensors): raises `IndexError` when out of range. -/
def pyTupleGet {α : Type} (l : List α) (i : ℕ) : Except String α :=
  match l.get? i with
  | some x => Except.ok x
  | none => Except.error "IndexError: tuple index out of range"

/-- `charsBeginWith needle hay` holds when `hay` begins with `needle`. -/
def charsBeginWith : List Char → List Char → Bool
  | [], _ => true
  | _ :: _, [] => false
  | c :: cs, h :: hs => c == h && charsBeginWith cs hs

/-- `charsContain needle hay` holds when `needle` occurs contiguously in `hay`. -/
def charsContain (needle : List Char) : List Char → Bool
  | [] => needle.isEmpty
  | h :: hs => charsBeginWith needle (h :: hs) || charsContain needle hs

/-- Python's substring test `needle in hay` on strings. -/
def pyIn (needle hay : String) : Bool :=
  charsContain needle.data hay.data

/-- `InputExample` (eval.py lines 29-47). -/
structure InputExample where
  guid : String
  text_a : String
  text_b : Option String
  label : Option String
deriving DecidableEq, Inhabited

/-- The `for (i, line) in enumerate(lines)` loop body shared verbatim by
`ColaProcessor._create_examples`, `DumbProcessor._create_examples` and
`DumbProcessorClean._create_examples` (eval.py lines 103-113, 133-143 and
196-205): `guid = "%s-%s" % (set_type, i)`, `text_a = line[3]`,
`label = line[1]`, no header row skipped.  The second argument of the
recursion is the running row index `i`. -/
def createExamplesGo (set_type : String) :
    List (List String) → ℕ → Except String (List InputExample)
  | [], _ => Except.ok []
  | line :: rest, i => do
    let text_a ← pyListGet line 3
    let label ← pyListGet line 1
    let tail ← createExamplesGo set_type rest (i + 1)
    pure ({ guid := set_type ++ "-" ++ toString i, text_a := text_a,
            text_b := none, label := some label } :: tail)

/-- `ColaProcessor._create_examples` (eval.py lines 196-205). -/
def ColaProcessor_create_examples (lines : List (List String)) (set_type : String) :
    Except String (List InputExample) :=
  createExamplesGo set_type lines 0

/-- `DumbProcessor._create_examples` (eval.py lines 133-143). -/
def DumbProcessor_create_examples (lines : List (List String)) (set_type : String) :
    Except String (List InputExample) :=
  createExamplesGo set_type lines 0

/-- `DumbProcessorClean._create_examples` (eval.py lines 103-113). -/
def DumbProcessorClean_create_examples (lines : List (List String)) (set_type : String) :
    Except String (List InputExample) :=
  createExamplesGo set_type lines 0

/-- `ColaProcessor.get_labels` (eval.py lines 192-194). -/
def ColaProcessor_get_labels : List String := ["0", "1"]

/-- `DumbProcessor.get_labels` (eval.py lines 129-131). -/
def DumbProcessor_get_labels : List String := ["0", "1"]

/-- `DumbProcessorClean.get_labels` (eval.py lines 99-101). -/
def DumbProcessorClean_get_labels : List String := ["0", "1"]

/-- Specification-side description of the example built from row number `i`
with row content `line` by the three identical `_create_examples` bodies. -/
def exampleOfLine (set_type : String) (i : ℕ) (line : List String) : InputExample :=
  { guid := set_type ++ "-" ++ toString i
    text_a := line.getD 3 ""
    text_b := none
    label := some (line.getD 1 "") }

/-- Abstract filesystem: the rows `csv.reader` would produce for a path, with
`none` when the file is missing (so `open` raises `FileNotFoundError`). -/
abbrev FS : Type := String → Option (List (List String))

/-- `DataProcessor._read_tsv` (eval.py lines 75-85): returns the parsed rows,
failing with `FileNotFoundError` when the file is absent.  CSV parsing itself
is delegated to the abstract filesystem. -/
def read_tsv (fs : FS) (input_file : String) : Except String (List (List String)) :=
  match fs input_file with
  | some lines => Except.ok lines
  | none => Except.error ("FileNotFoundError: " ++ input_file)

/-- `os.path.join(data_dir, name)` for the relative file names used here. -/
def pathJoin (data_dir name : String) : String := data_dir ++ "/" ++ name

/-- `ColaProcessor.get_train_examples` (eval.py lines 182-185). -/
def ColaProcessor_get_train_examples (fs : FS) (data_dir : String) :
    Except String (List InputExample) := do
  let lines ← read_tsv fs (pathJoin data_dir "train.tsv")
  ColaProcessor_create_examples lines "train"

/-- `ColaProcessor.get_dev_examples` (eval.py lines 187-190). -/
def ColaProcessor_get_dev_examples (fs : FS) (data_dir : String) :
    Except String (List InputExample) := do
  let lines ← read_tsv fs (pathJoin data_dir "dev.tsv")
  ColaProcessor_create_examples lines "dev"

/-- `DumbProcessor.get_train_examples` (eval.py lines 119-122). -/
def DumbProcessor_get_train_examples (fs : FS) (data_dir : String) :
    Except String (List InputExample) := do
  let lines ← read_tsv fs (pathJoin data_dir "train_wordnet_amb.tsv")
  DumbProcessor_create_examples lines "train"

/-- `DumbProcessor.get_dev_examples` (eval.py lines 124-127). -/
def DumbProcessor_get_dev_examples (fs : FS) (data_dir : String) :
    Except String (List InputExample) := do
  let lines ← read_tsv fs (pathJoin data_dir "dev_wordnet_amb.tsv")
  DumbProcessor_create_examples lines "dev"

/-- `DumbProcessorClean.get_train_examples` (eval.py lines 89-92). -/
def DumbProcessorClean_get_train_examples (fs : FS) (data_dir : String) :
    Except String (List InputExample) := do
  let lines ← read_tsv fs (pathJoin data_dir "train_clean.tsv")
  DumbProcessorClean_create_examples lines "train"

/-- `DumbProcessorClean.get_dev_examples` (eval.py lines 94-97). -/
def DumbProcessorClean_get_dev_examples (fs : FS) (data_dir : String) :
    Except String (List InputExample) := do
  let lines ← read_tsv fs (pathJoin data_dir "dev_clean.tsv")
  DumbProcessorClean_create_examples lines "dev"

/-- The values of the `processors` dict (eval.py lines 245-249). -/
inductive ProcKind where
  | old
  | new_clean
  | new
deriving DecidableEq

/-- Lookup into the `processors` dict (eval.py lines 245-249 and 259); Python
raises `KeyError` on a missing key. -/
def processors_lookup (task_name : String) : Except String ProcKind :=
  if task_name = "old" then Except.ok ProcKind.old
  else if task_name = "new_clean" then Except.ok ProcKind.new_clean
  else if task_name = "new" then Except.ok ProcKind.new
  else Except.error ("KeyError: " ++ task_name)

/-- Dispatch of `processor.get_train_examples(args.data_dir)` (eval.py line 263). -/
def proc_get_train_examples : ProcKind → FS → String → Except String (List InputExample)
  | ProcKind.old => ColaProcessor_get_train_examples
  | ProcKind.new_clean => DumbProcessorClean_get_train_examples
  | ProcKind.new => DumbProcessor_get_train_examples

/-- Dispatch of `processor.get_dev_examples(args.data_dir)` (eval.py line 265). -/
def proc_get_dev_examples : ProcKind → FS → String → Except String (List InputExample)
  | ProcKind.old => ColaProcessor_get_dev_examples
  | ProcKind.new_clean => DumbProcessorClean_get_dev_examples
  | ProcKind.new => DumbProcessor_get_dev_examples

/-- Truth value of the Python expression `evaluate` tested at eval.py line 262
(`if not evaluate:`).  `evaluate` there denotes the module-level function
defined at line 310 (no local of that name exists in
`load_and_cache_examples`), and Python function objects are always truthy. -/
def evaluate_function_truthy : Bool := true

/-- The `args.old_load` branch of `load_and_cache_examples` (eval.py lines
256-265) up to the example-fetching step.  The later feature conversion
(`convert_examples_new`, from `utils.py`) and tensor stacking are modelled
separately (`legacyTensorDataset`). -/
def load_and_cache_examples_old_load (task_name : String) (fs : FS) (data_dir : String) :
    Except String (List InputExample) := do
  let processor ← processors_lookup task_name
  if !evaluate_function_truthy then
    proc_get_train_examples processor fs data_dir
  else
    proc_get_dev_examples processor fs data_dir

/-- `ambiguity_fn` selection in `main` (eval.py lines 443-449): substring
tests on `args.model_weights`. -/
def select_ambiguity_fn (model_weights : String) : String :=
  if pyIn "_csi_" model_weights then "csi"
  else if pyIn "_wn_" model_weights then "wn"
  else if pyIn "_tf-idf_" model_weights then "tf-idf"
  else "none"

/-- `task_name` selection in `main` (eval.py lines 450-454): substring tests
on `args.model_weights`, `"new_clean"` tested before `"new"`. -/
def select_task_name (model_weights : String) : String :=
  if pyIn "new_clean" model_weights then "new_clean"
  else if pyIn "new" model_weights then "new"
  else "old"

/-- The two command-line arguments relevant to the selection logic of `main`. -/
structure ArgsSel where
  data_dir : String
  model_weights : String
deriving DecidableEq

/-- The `(ambiguity_fn, task_name)` pair computed by `main`
(eval.py lines 443-454). -/
def main_select (args : ArgsSel) : String × String :=
  (select_ambiguity_fn args.model_weights, select_task_name args.model_weights)

/-- A `torch` long tensor as used by this script: 1-D (labels) or 2-D
(token ids, masks, segment ids, ambiguity scores). -/
inductive Tensor where
  | long1 : List ℤ → Tensor
  | long2 : List (List ℤ) → Tensor
deriving DecidableEq

/-- `t.size(0)`: the first dimension of a tensor. -/
def tensorSize0 : Tensor → ℕ
  | Tensor.long1 v => v.length
  | Tensor.long2 m => m.length

/-- The first `k` rows of a tensor (the current `DataLoader` batch slice). -/
def takeRows (k : ℕ) : Tensor → Tensor
  | Tensor.long1 v => Tensor.long1 (v.take k)
  | Tensor.long2 m => Tensor.long2 (m.take k)

/-- All but the first `k` rows of a tensor (the part after the current batch). -/
def dropRows (k : ℕ) : Tensor → Tensor
  | Tensor.long1 v => Tensor.long1 (v.drop k)
  | Tensor.long2 m => Tensor.long2 (m.drop k)

/-- `len(TensorDataset(...))`: the shared first dimension of the stacked
field tensors. -/
def datasetLen : List Tensor → ℕ
  | [] => 0
  | t :: _ => tensorSize0 t

/-- `inputs['labels'].to('cpu').numpy()` viewed as a list of labels.  In this
script the label tensor is always 1-D (eval.py lines 272 and 288), so the 2-D
case is unreachable. -/
def tensorLabels : Tensor → List ℤ
  | Tensor.long1 v => v
  | Tensor.long2 _ => []

/-- `InputFeatures` (eval.py lines 50-57). -/
structure InputFeatures where
  input_ids : List ℤ
  input_mask : List ℤ
  segment_ids : List ℤ
  label_id : ℤ
deriving DecidableEq

/-- The legacy (`args.old_load`) tensor stacking (eval.py lines 269-274):
four parallel tensors `(ids, masks, segment ids, labels)` — no ambiguity
field. -/
def legacyTensorDataset (features : List InputFeatures) : List Tensor :=
  [Tensor.long2 (features.map (fun f => f.input_ids)),
   Tensor.long2 (features.map (fun f => f.input_mask)),
   Tensor.long2 (features.map (fun f => f.segment_ids)),
   Tensor.long1 (features.map (fun f => f.label_id))]

/-- The extended-path tensor stacking (eval.py lines 284-290): five parallel
tensors `(ids, masks, segment ids, labels, ambiguity scores)`. -/
def fields5 (input_ids input_masks token_type_ids : List (List ℤ)) (labels : List ℤ)
    (ambiguity_scores : List (List ℤ)) : List Tensor :=
  [Tensor.long2 input_ids, Tensor.long2 input_masks, Tensor.long2 token_type_ids,
   Tensor.long1 labels, Tensor.long2 ambiguity_scores]

/-- The `inputs` keyword bundle handed to the model (eval.py lines 330-336);
`ambiguity_scores` is present exactly when the conditional at line 335 adds it. -/
structure ModelInputs where
  input_ids : Tensor
  token_type_ids : Tensor
  attention_mask : Tensor
  labels : Tensor
  ambiguity_scores : Option Tensor
deriving DecidableEq

/-- The bundle `buildInputs` produces on a five-field batch (see
`buildInputs`): `ambiguity_scores` is included iff `"baseline_"` does not
occur in `data_dir`. -/
def mkInputs (data_dir : String)
    (input_ids token_type_ids attention_mask labels amb : Tensor) : ModelInputs :=
  { input_ids := input_ids, token_type_ids := token_type_ids,
    attention_mask := attention_mask, labels := labels,
    ambiguity_scores := if pyIn "baseline_" data_dir then none else some amb }

/-- Lines 330-336 of eval.py: build the model input bundle from a `DataLoader`
batch tuple.  `batch[4]` is only touched when `"baseline_" not in
args.data_dir`. -/
def buildInputs (data_dir : String) (batch : List Tensor) : Except String ModelInputs := do
  let input_ids ← pyTupleGet batch 0
  let token_type_ids ← pyTupleGet batch 2
  let attention_mask ← pyTupleGet batch 1
  let labels ← pyTupleGet batch 3
  if pyIn "baseline_" data_dir then
    pure { input_ids := input_ids, token_type_ids := token_type_ids,
           attention_mask := attention_mask, labels := labels,
           ambiguity_scores := none }
  else
    let ambiguity_scores ← pyTupleGet batch 4
    pure { input_ids := input_ids, token_type_ids := token_type_ids,
           attention_mask := attention_mask, labels := labels,
           ambiguity_scores := some ambiguity_scores }

/-- Tail of `np.argmax` over one row: `bv` is the best value so far, `best`
its index, `i` the index of the head of the remaining list. -/
def argmaxGo : List ℚ → ℚ → ℕ → ℕ → ℕ
  | [], _, best, _ => best
  | x :: xs, bv, best, i =>
    if bv < x then argmaxGo xs x i (i + 1) else argmaxGo xs bv best (i + 1)

/-- `np.argmax` over one row: index of the first maximal entry (0 on an
empty row). -/
def argmaxIdx : List ℚ → ℕ
  | [] => 0
  | x :: xs => argmaxGo xs x 0 1

/-- `np.argmax(out, axis=1)` (eval.py lines 297 and 303). -/
def np_argmax_rows (out : List (List ℚ)) : List ℤ :=
  out.map (fun row => (argmaxIdx row : ℤ))

/-- `accuracy` (eval.py lines 296-298):
`np.sum(np.argmax(out, axis=1) == labels)`. -/
def accuracy (out : List (List ℚ)) (labels : List ℤ) : ℕ :=
  ((np_argmax_rows out).zip labels).countP (fun p => p.1 == p.2)

/-- True positives of the binary task: gold label 1 and prediction 1. -/
def countTP (y_true y_pred : List ℤ) : ℕ :=
  (y_true.zip y_pred).countP (fun p => p.1 == 1 && p.2 == 1)

/-- False positives of the binary task: prediction 1, gold label not 1. -/
def countFP (y_true y_pred : List ℤ) : ℕ :=
  (y_true.zip y_pred).countP (fun p => !(p.1 == 1) && p.2 == 1)

/-- False negatives of the binary task: gold label 1, prediction not 1. -/
def countFN (y_true y_pred : List ℤ) : ℕ :=
  (y_true.zip y_pred).countP (fun p => p.1 == 1 && !(p.2 == 1))

/-- Modelled from the spec: `sklearn.metrics.precision_score` (an external
collaborator, eval.py line 305) with the standard binary definition, positive
class 1, and degenerate cases resolved to 0. -/
def precision_score (y_true y_pred : List ℤ) : ℚ :=
  let tp := countTP y_true y_pred
  let fp := countFP y_true y_pred
  if tp + fp = 0 then 0 else (tp : ℚ) / ((tp + fp : ℕ) : ℚ)

/-- Modelled from the spec: `sklearn.metrics.recall_score` (an external
collaborator, eval.py line 306), binary, positive class 1, degenerate cases 0. -/
def recall_score (y_true y_pred : List ℤ) : ℚ :=
  let tp := countTP y_true y_pred
  let fn := countFN y_true y_pred
  if tp + fn = 0 then 0 else (tp : ℚ) / ((tp + fn : ℕ) : ℚ)

/-- Modelled from the spec: `sklearn.metrics.f1_score` (an external
collaborator, eval.py line 304), binary, positive class 1, degenerate cases 0. -/
def f1_score (y_true y_pred : List ℤ) : ℚ :=
  let tp := countTP y_true y_pred
  let fp := countFP y_true y_pred
  let fn := countFN y_true y_pred
  if 2 * tp + fp + fn = 0 then 0
  else ((2 * tp : ℕ) : ℚ) / ((2 * tp + fp + fn : ℕ) : ℚ)

/-- `get_metrics` (eval.py lines 301-307): `(f1, precision, recall)` of
`argmax(logits, axis=1)` against the gold labels. -/
def get_metrics (logits : List (List ℚ)) (labels : List ℤ) : ℚ × ℚ × ℚ :=
  let outputs := np_argmax_rows logits
  (f1_score labels outputs, precision_score labels outputs, recall_score labels outputs)

/-- The running aggregates of the evaluation loop (eval.py lines 322-325). -/
structure EvalState where
  eval_loss : ℚ
  eval_accuracy : ℕ
  nb_eval_steps : ℕ
  nb_eval_examples : ℕ
  full_logits : Option (List (List ℚ))
  full_labels : Option (List ℤ)
deriving DecidableEq

/-- The initial aggregates (eval.py lines 322-325): zeros and `None` buffers. -/
def initState : EvalState :=
  { eval_loss := 0, eval_accuracy := 0, nb_eval_steps := 0, nb_eval_examples := 0,
    full_logits := none, full_labels := none }

/-- The `if full_x is None: full_x = new else: full_x = np.append(full_x, new,
axis=0)` accumulation pattern (eval.py lines 346-354). -/
def appendO {α : Type} (acc : Option (List α)) (new : List α) : List α :=
  match acc with
  | none => new
  | some old => old ++ new

/-- One iteration of the evaluation loop (eval.py lines 327-362) on one batch:
build the input bundle, invoke the model, extend the label and logit buffers,
and add the batch loss, correct count, step count and example count.  The
model's first component is `tmp_eval_loss.mean().item()` (the scalar mean
batch loss), its second the detached logits matrix. -/
def evalStep (model : ModelInputs → ℚ × List (List ℚ)) (data_dir : String)
    (st : EvalState) (batch : List Tensor) : Except String EvalState := do
  let inputs ← buildInputs data_dir batch
  let outputs := model inputs
  let tmp_eval_loss := outputs.1
  let logits := outputs.2
  let label_ids := tensorLabels inputs.labels
  pure
    { eval_loss := st.eval_loss + tmp_eval_loss
      eval_accuracy := st.eval_accuracy + accuracy logits label_ids
      nb_eval_steps := st.nb_eval_steps + 1
      nb_eval_examples := st.nb_eval_examples + tensorSize0 inputs.input_ids
      full_logits := some (appendO st.full_logits logits)
      full_labels := some (appendO st.full_labels label_ids) }

/-- The `for batch in eval_dataloader` loop (eval.py lines 327-362): a
`SequentialSampler` with batch size `B` yields the successive contiguous
slices of the dataset in order, the last one possibly smaller. -/
def evalLoop (model : ModelInputs → ℚ × List (List ℚ)) (data_dir : String) (B : ℕ)
    (fields : List Tensor) (st : EvalState) : Except String EvalState :=
  if h : datasetLen fields = 0 ∨ B = 0 then Except.ok st
  else
    (evalStep model data_dir st (fields.map (takeRows B))).bind
      (fun st' => evalLoop model data_dir B (fields.map (dropRows B)) st')
termination_by datasetLen fields
decreasing_by
  simp only [not_or] at h
  obtain ⟨h1, h2⟩ := h
  cases fields with
  | nil => simp [datasetLen] at h1
  | cons t ts =>
    cases t with
    | long1 v =>
      simp only [List.map_cons, datasetLen, dropRows, tensorSize0, List.length_drop] at h1 ⊢
      omega
    | long2 m =>
      simp only [List.map_cons, datasetLen, dropRows, tensorSize0, List.length_drop] at h1 ⊢
      omega

/-- `evaluate` (eval.py lines 310-371) after the dataset has been assembled
by `load_and_cache_examples`: one sequential full pass, then the final
metrics `(eval_loss, eval_accuracy, eval_f1)`.  With zero batches the buffers
are still `None` and `np.argmax(None, axis=1)` inside `get_metrics` (line
364) raises, before any division is attempted; the `nb_eval_steps = 0` guard
mirrors Python's `ZeroDivisionError` at line 367 and is unreachable.
`full_accuracy` (line 365) is computed and discarded as in the source. -/
def evaluate (model : ModelInputs → ℚ × List (List ℚ)) (data_dir : String)
    (eval_data : List Tensor) (eval_batch_size : ℕ) : Except String (ℚ × ℚ × ℚ) :=
  match evalLoop model data_dir eval_batch_size eval_data initState with
  | Except.error e => Except.error e
  | Except.ok st =>
    match st.full_logits, st.full_labels with
    | some full_logits, some full_labels =>
      let m := get_metrics full_logits full_labels
      let _full_accuracy := accuracy full_logits full_labels
      if st.nb_eval_steps = 0 then
        Except.error "ZeroDivisionError: division by zero"
      else
        Except.ok (st.eval_loss / (st.nb_eval_steps : ℚ),
          (st.eval_accuracy : ℚ) / (st.nb_eval_examples : ℚ), m.1)
    | _, _ =>
      Except.error "AxisError: np.argmax on a None logits accumulator"

/-- Specification-side count: the number of dataset rows whose argmax
prediction under the row-wise logit function `f` equals the gold label,
computed directly over the whole dataset with no batching. -/
def countCorrect (f : List ℤ → List ℚ) (ids : List (List ℤ)) (lv : List ℤ) : ℕ :=
  (ids.zip lv).countP (fun p => (argmaxIdx (f p.1) : ℤ) == p.2)

/-- Specification-side list of per-batch mean losses: entry `b` is the loss
the model reports on the `b`-th sequential batch of size `B` (the last batch
possibly smaller). -/
def batchLosses (model : ModelInputs → ℚ × List (List ℚ)) (d : String) (B : ℕ)
    (ids mask seg : List (List ℤ)) (lv : List ℤ) (amb : List (List ℤ)) : List ℚ :=
  if h : ids.length = 0 ∨ B = 0 then []
  else
    (model (mkInputs d (Tensor.long2 (ids.take B)) (Tensor.long2 (seg.take B))
        (Tensor.long2 (mask.take B)) (Tensor.long1 (lv.take B))
        (Tensor.long2 (amb.take B)))).1
      :: batchLosses model d B (ids.drop B) (mask.drop B) (seg.drop B)
          (lv.drop B) (amb.drop B)
termination_by ids.length
decreasing_by
  simp only [not_or] at h
  simp only [List.length_drop]
  omega

/-- A concrete row-wise logit function used by the witnesses: every row gets
logits `[0, 1]`, i.e. the model always predicts class 1. -/
def wLogit (_row : List ℤ) : List ℚ := [0, 1]

/-- A concrete model used by the witnesses: mean batch loss 1, logits computed
row-wise by `wLogit`. -/
def wModel (inputs : ModelInputs) : ℚ × List (List ℚ) :=
  (1, match inputs.input_ids with
      | Tensor.long1 _ => []
      | Tensor.long2 rows => rows.map wLogit)

theorem pyListGet_ok {α : Type} (l : List α) (i : ℕ) (d : α) (h : i < l.length) :
    pyListGet l i = Except.ok (l.getD i d) := by
  induction l generalizing i with
  | nil => simp at h
  | cons a t ih =>
    cases i with
    | zero => simp [pyListGet]
    | succ k =>
      have hk : k < t.length := by simpa using h
      simpa [pyListGet, List.getD] using ih k hk

theorem pyListGet_err {α : Type} (l : List α) (i : ℕ) (h : l.length ≤ i) :
    pyListGet l i = Except.error "IndexError: list index out of range" := by
  unfold pyListGet
  rw [List.get?_eq_none.mpr h]

theorem charsBeginWith_trans : ∀ a b c : List Char,
    charsBeginWith a b = true → charsBeginWith b c = true →
    charsBeginWith a c = true := by
  intro a
  induction a with
  | nil => intro b c _ _; rfl
  | cons x xs ih =>
    intro b c hab hbc
    cases b with
    | nil => simp [charsBeginWith] at hab
    | cons y ys =>
      cases c with
      | nil => simp [charsBeginWith] at hbc
      | cons z zs =>
        simp only [charsBeginWith, Bool.and_eq_true, beq_iff_eq] at hab hbc ⊢
        exact ⟨hab.1.trans hbc.1, ih ys zs hab.2 hbc.2⟩

theorem charsContain_mono : ∀ (small big hay : List Char),
    charsBeginWith small big = true → charsContain big hay = true →
    charsContain small hay = true := by
  intro small big hay
  induction hay with
  | nil =>
    intro hsb hb
    cases big with
    | nil =>
      cases small with
      | nil => rfl
      | cons _ _ => simp [charsBeginWith] at hsb
    | cons _ _ => simp [charsContain, List.isEmpty] at hb
  | cons h hs ih =>
    intro hsb hb
    simp only [charsContain, Bool.or_eq_true] at hb ⊢
    cases hb with
    | inl h1 => exact Or.inl (charsBeginWith_trans small big (h :: hs) hsb h1)
    | inr h2 => exact Or.inr (ih hsb h2)

theorem pyIn_new_clean_to_new (w : String) :
    pyIn "new_clean" w = true → pyIn "new" w = true := by
  intro h
  exact charsContain_mono _ _ _ (by decide) h

theorem createExamplesGo_spec (set_type : String) :
    ∀ (lines : List (List String)) (i : ℕ), (∀ l ∈ lines, 4 ≤ l.length) →
    ∃ exs, createExamplesGo set_type lines i = Except.ok exs
      ∧ exs.length = lines.length
      ∧ ∀ j, j < lines.length →
          exs.getD j default = exampleOfLine set_type (i + j) (lines.getD j []) := by
  intro lines
  induction lines with
  | nil =>
    intro i _
    exact ⟨[], rfl, rfl, by intro j hj; simp at hj⟩
  | cons line rest ih =>
    intro i hw
    have hline : 4 ≤ line.length := hw line (by simp)
    have hrest : ∀ l ∈ rest, 4 ≤ l.length := fun l hl => hw l (by simp [hl])
    obtain ⟨exs, hok, hlen, hpt⟩ := ih (i + 1) hrest
    refine ⟨exampleOfLine set_type i line :: exs, ?_, by simp [hlen], ?_⟩
    · rw [createExamplesGo, pyListGet_ok line 3 "" (by omega),
        pyListGet_ok line 1 "" (by omega), hok]
      rfl
    · intro j hj
      cases j with
      | zero => simp
      | succ k =>
        have hk : k < rest.length := by simpa using hj
        have hx := hpt k hk
        have harith : i + 1 + k = i + (k + 1) := by omega
        rw [harith] at hx
        simpa using hx

theorem createExamplesGo_err (set_type : String) :
    ∀ (lines : List (List String)) (i : ℕ), (∃ l ∈ lines, l.length < 4) →
    createExamplesGo set_type lines i
      = Except.error "IndexError: list index out of range" := by
  intro lines
  induction lines with
  | nil =>
    intro i hbad
    simp at hbad
  | cons line rest ih =>
    intro i hbad
    by_cases h3 : line.length < 4
    · rw [createExamplesGo, pyListGet_err line 3 (by omega)]
      rfl
    · obtain ⟨l, hl, hlen⟩ := hbad
      have hlr : l ∈ rest := by
        rcases List.mem_cons.mp hl with h | h
        · exact absurd (h ▸ hlen) h3
        · exact h
      rw [createExamplesGo, pyListGet_ok line 3 "" (by omega),
        pyListGet_ok line 1 "" (by omega), ih i.succ ⟨l, hlr, hlen⟩]
      rfl

/-- C4: for every raw file read by processor variants A (`ColaProcessor`),
B (`DumbProcessorClean`) and C (`DumbProcessor`), the returned example
sequence preserves file row order with no header row skipped, example `j` has
id `"{split}-{j}"`, its text is column 3 and its label column 1 of row `j`,
and the label vocabulary of all three variants is exactly `["0", "1"]`. -/
theorem processors_preserve_rows_and_columns (lines : List (List String))
    (set_type : String) (hw : ∀ l ∈ lines, 4 ≤ l.length) :
    ∃ exs,
      ColaProcessor_create_examples lines set_type = Except.ok exs
      ∧ DumbProcessor_create_examples lines set_type = Except.ok exs
      ∧ DumbProcessorClean_create_examples lines set_type = Except.ok exs
      ∧ exs.length = lines.length
      ∧ (∀ j, j < lines.length →
          (exs.getD j default).guid = set_type ++ "-" ++ toString j
          ∧ (exs.getD j default).text_a = (lines.getD j []).getD 3 ""
          ∧ (exs.getD j default).label = some ((lines.getD j []).getD 1 ""))
      ∧ ColaProcessor_get_labels = ["0", "1"]
      ∧ DumbProcessor_get_labels = ["0", "1"]
      ∧ DumbProcessorClean_get_labels = ["0", "1"] := by
  obtain ⟨exs, hok, hlen, hpt⟩ := createExamplesGo_spec set_type lines 0 hw
  refine ⟨exs, hok, hok, hok, hlen, ?_, rfl, rfl, rfl⟩
  intro j hj
  have hx := hpt j hj
  rw [Nat.zero_add] at hx
  rw [hx]
  exact ⟨rfl, rfl, rfl⟩

theorem processors_preserve_rows_and_columns_witness :
    (∀ l ∈ [["x0", "1", "x2", "some text"], ["y0", "0", "y2", "more", "extra"]],
      4 ≤ l.length)
    ∧ ∃ exs,
      ColaProcessor_create_examples
          [["x0", "1", "x2", "some text"], ["y0", "0", "y2", "more", "extra"]] "dev"
        = Except.ok exs
      ∧ DumbProcessor_create_examples
          [["x0", "1", "x2", "some text"], ["y0", "0", "y2", "more", "extra"]] "dev"
        = Except.ok exs
      ∧ DumbProcessorClean_create_examples
          [["x0", "1", "x2", "some text"], ["y0", "0", "y2", "more", "extra"]] "dev"
        = Except.ok exs
      ∧ exs.length
          = [["x0", "1", "x2", "some text"], ["y0", "0", "y2", "more", "extra"]].length
      ∧ (∀ j, j < [["x0", "1", "x2", "some text"],
            ["y0", "0", "y2", "more", "extra"]].length →
          (exs.getD j default).guid = "dev" ++ "-" ++ toString j
          ∧ (exs.getD j default).text_a
              = (([["x0", "1", "x2", "some text"],
                  ["y0", "0", "y2", "more", "extra"]].getD j []).getD 3 "")
          ∧ (exs.getD j default).label
              = some (([["x0", "1", "x2", "some text"],
                  ["y0", "0", "y2", "more", "extra"]].getD j []).getD 1 ""))
      ∧ ColaProcessor_get_labels = ["0", "1"]
      ∧ DumbProcessor_get_labels = ["0", "1"]
      ∧ DumbProcessorClean_get_labels = ["0", "1"] :=
  ⟨by decide,
   processors_preserve_rows_and_columns
     [["x0", "1", "x2", "some text"], ["y0", "0", "y2", "more", "extra"]] "dev"
     (by decide)⟩

/-- C6: a raw input row with fewer than 4 columns makes example creation in
all three processor variants fail with Python's index-out-of-range error;
nothing is returned for the other rows (no partial-skip recovery). -/
theorem processors_short_row_index_error (lines : List (List String))
    (set_type : String) (hbad : ∃ l ∈ lines, l.length < 4) :
    ColaProcessor_create_examples lines set_type
        = Except.error "IndexError: list index out of range"
    ∧ DumbProcessor_create_examples lines set_type
        = Except.error "IndexError: list index out of range"
    ∧ DumbProcessorClean_create_examples lines set_type
        = Except.error "IndexError: list index out of range" := by
  have h := createExamplesGo_err set_type lines 0 hbad
  exact ⟨h, h, h⟩

theorem processors_short_row_index_error_witness :
    (∃ l ∈ [["a0", "1", "a2", "text"], ["b0", "1", "b2"]], l.length < 4)
    ∧ ColaProcessor_create_examples [["a0", "1", "a2", "text"], ["b0", "1", "b2"]] "dev"
        = Except.error "IndexError: list index out of range"
    ∧ DumbProcessor_create_examples [["a0", "1", "a2", "text"], ["b0", "1", "b2"]] "dev"
        = Except.error "IndexError: list index out of range"
    ∧ DumbProcessorClean_create_examples
          [["a0", "1", "a2", "text"], ["b0", "1", "b2"]] "dev"
        = Except.error "IndexError: list index out of range" :=
  ⟨by decide,
   processors_short_row_index_error [["a0", "1", "a2", "text"], ["b0", "1", "b2"]] "dev"
     (by decide)⟩

/-- C8: with the legacy-loader flag set, `load_and_cache_examples` always
fetches the dev split: the condition `not evaluate` at eval.py line 262 tests
the truthiness of the module-level `evaluate` function, which is always true,
so for every task name, filesystem and data directory the result is exactly
the chosen processor's `get_dev_examples`, and `get_train_examples` is
unreachable. -/
theorem load_old_always_fetches_dev (task_name : String) (fs : FS) (data_dir : String) :
    load_and_cache_examples_old_load task_name fs data_dir
      = (processors_lookup task_name).bind
          (fun p => proc_get_dev_examples p fs data_dir) := by
  unfold load_and_cache_examples_old_load
  cases processors_lookup task_name with
  | error e => rfl
  | ok p => rfl

/-- C10: the ambiguity function and the task variant computed by `main` depend
only on the `model_weights` path, never on the data directory; a weights path
containing `"new_clean"` always selects task `"new_clean"` (even though such a
path also contains `"new"`), otherwise a path containing `"new"` selects
`"new"`, otherwise `"old"`. -/
theorem main_selects_task_from_weights_only (dd dd' w : String) :
    main_select { data_dir := dd, model_weights := w }
        = main_select { data_dir := dd', model_weights := w }
    ∧ (pyIn "new_clean" w = true → pyIn "new" w = true)
    ∧ (pyIn "new_clean" w = true →
        (main_select { data_dir := dd, model_weights := w }).2 = "new_clean")
    ∧ (pyIn "new_clean" w = false → pyIn "new" w = true →
        (main_select { data_dir := dd, model_weights := w }).2 = "new")
    ∧ (pyIn "new" w = false →
        (main_select { data_dir := dd, model_weights := w }).2 = "old") := by
  refine ⟨rfl, pyIn_new_clean_to_new w, ?_, ?_, ?_⟩
  · intro h
    simp [main_select, select_task_name, h]
  · intro h1 h2
    simp [main_select, select_task_name, h1, h2]
  · intro h
    have h1 : pyIn "new_clean" w = false := by
      cases hc : pyIn "new_clean" w
      · rfl
      · rw [pyIn_new_clean_to_new w hc] at h
        exact absurd h (by simp)
    simp [main_select, select_task_name, h, h1]

theorem main_selects_task_from_weights_only_witness :
    pyIn "new_clean" "runs/model_new_clean_wn_1.pt" = true
    ∧ (main_select { data_dir := "data/a", model_weights := "runs/model_new_clean_wn_1.pt" }).2
        = "new_clean" :=
  ⟨by decide,
   (main_selects_task_from_weights_only "data/a" "data/b"
      "runs/model_new_clean_wn_1.pt").2.2.1 (by decide)⟩

theorem zip_take_both {α β : Type} :
    ∀ (l1 : List α) (l2 : List β) (k : ℕ),
    (l1.zip l2).take k = (l1.take k).zip (l2.take k) := by
  intro l1
  induction l1 with
  | nil => intro l2 k; simp
  | cons a t ih =>
    intro l2 k
    cases l2 with
    | nil => simp
    | cons b t2 =>
      cases k with
      | zero => simp
      | succ k' => simp [List.zip_cons_cons, ih t2 k']

theorem zip_drop_both {α β : Type} :
    ∀ (l1 : List α) (l2 : List β) (k : ℕ),
    (l1.zip l2).drop k = (l1.drop k).zip (l2.drop k) := by
  intro l1
  induction l1 with
  | nil => intro l2 k; simp
  | cons a t ih =>
    intro l2 k
    cases l2 with
    | nil => simp
    | cons b t2 =>
      cases k with
      | zero => simp
      | succ k' => simp [List.zip_cons_cons, ih t2 k']

theorem appendO_some {α : Type} (x y : List α) : appendO (some x) y = x ++ y := rfl

theorem appendO_none {α : Type} (y : List α) : appendO none y = y := rfl

theorem appendO_append {α : Type} (acc : Option (List α)) (a b : List α) :
    appendO acc a ++ b = appendO acc (a ++ b) := by
  cases acc <;> simp [appendO]

theorem buildInputs_fields5 (d : String) (t0 t1 t2 t3 t4 : Tensor) :
    buildInputs d [t0, t1, t2, t3, t4] = Except.ok (mkInputs d t0 t2 t1 t3 t4) := by
  cases h : pyIn "baseline_" d <;>
    simp only [buildInputs, pyTupleGet, mkInputs, h, List.get?] <;> rfl

theorem buildInputs_four_err (d : String) (t0 t1 t2 t3 : Tensor)
    (hbase : pyIn "baseline_" d = false) :
    buildInputs d [t0, t1, t2, t3]
      = Except.error "IndexError: tuple index out of range" := by
  simp only [buildInputs, pyTupleGet, hbase, List.get?]
  rfl

theorem evalStep_fields5 (model : ModelInputs → ℚ × List (List ℚ)) (d : String)
    (st : EvalState) (i m s : List (List ℤ)) (l : List ℤ) (a : List (List ℤ)) :
    evalStep model d st (fields5 i m s l a) = Except.ok
      { eval_loss := st.eval_loss
          + (model (mkInputs d (Tensor.long2 i) (Tensor.long2 s) (Tensor.long2 m)
              (Tensor.long1 l) (Tensor.long2 a))).1
        eval_accuracy := st.eval_accuracy
          + accuracy (model (mkInputs d (Tensor.long2 i) (Tensor.long2 s) (Tensor.long2 m)
              (Tensor.long1 l) (Tensor.long2 a))).2 l
        nb_eval_steps := st.nb_eval_steps + 1
        nb_eval_examples := st.nb_eval_examples + i.length
        full_logits := some (appendO st.full_logits
          (model (mkInputs d (Tensor.long2 i) (Tensor.long2 s) (Tensor.long2 m)
              (Tensor.long1 l) (Tensor.long2 a))).2)
        full_labels := some (appendO st.full_labels l) } := by
  simp only [evalStep, fields5]
  rw [buildInputs_fields5]
  rfl

/-- C2: for every five-field batch (the shape the extended dataset produces),
the model input bundle is built successfully and it contains the
`ambiguity_scores` field exactly when `"baseline_"` does not occur in the
data-directory path. -/
theorem eval_inputs_ambiguity_iff_not_baseline (d : String) (t0 t1 t2 t3 t4 : Tensor) :
    ∃ inputs, buildInputs d [t0, t1, t2, t3, t4] = Except.ok inputs
      ∧ (inputs.ambiguity_scores.isSome = true ↔ pyIn "baseline_" d = false) := by
  refine ⟨mkInputs d t0 t2 t1 t3 t4, buildInputs_fields5 d t0 t1 t2 t3 t4, ?_⟩
  cases h : pyIn "baseline_" d <;> simp [mkInputs, h]

/-- C7: on an empty dataset (zero rows, hence zero batches) the evaluator
fails with a defined error before any division: the logits buffer is still
`None` after the loop, so `np.argmax(None, axis=1)` inside `get_metrics`
raises, and the zero-divisor loss and accuracy normalisations are never
executed. -/
theorem evaluate_empty_dataset_fails (model : ModelInputs → ℚ × List (List ℚ))
    (d : String) (B : ℕ) (fields : List Tensor) (h : datasetLen fields = 0) :
    evaluate model d fields B
      = Except.error "AxisError: np.argmax on a None logits accumulator" := by
  unfold evaluate
  rw [evalLoop.eq_def, dif_pos (Or.inl h)]
  rfl

theorem evaluate_empty_dataset_fails_witness :
    datasetLen (fields5 [] [] [] [] []) = 0
    ∧ evaluate wModel "data/any" (fields5 [] [] [] [] []) 8
        = Except.error "AxisError: np.argmax on a None logits accumulator" :=
  ⟨rfl, evaluate_empty_dataset_fails wModel "data/any" 8 (fields5 [] [] [] [] []) rfl⟩

/-- C9: with the legacy loader's four-tensor dataset and a data directory that
does not contain `"baseline_"`, the evaluator fails on the very first batch
with `IndexError`: the batch tuple has entries 0..3 but the input-bundle
construction accesses `batch[4]`. -/
theorem legacy_nonbaseline_first_batch_index_error
    (model : ModelInputs → ℚ × List (List ℚ)) (d : String)
    (features : List InputFeatures) (B : ℕ)
    (hbase : pyIn "baseline_" d = false) (hne : features ≠ []) (hB : B ≠ 0) :
    evaluate model d (legacyTensorDataset features) B
      = Except.error "IndexError: tuple index out of range" := by
  have hn0 : features.length ≠ 0 := fun h => hne (List.length_eq_zero.mp h)
  have hcond : ¬(datasetLen (legacyTensorDataset features) = 0 ∨ B = 0) := by
    simp only [legacyTensorDataset, datasetLen, tensorSize0, List.length_map, not_or]
    exact ⟨hn0, hB⟩
  have hmap : (legacyTensorDataset features).map (takeRows B)
      = [Tensor.long2 ((features.map (fun f => f.input_ids)).take B),
         Tensor.long2 ((features.map (fun f => f.input_mask)).take B),
         Tensor.long2 ((features.map (fun f => f.segment_ids)).take B),
         Tensor.long1 ((features.map (fun f => f.label_id)).take B)] := by
    simp [legacyTensorDataset, takeRows]
  have hstep : evalStep model d initState
      ((legacyTensorDataset features).map (takeRows B))
      = Except.error "IndexError: tuple index out of range" := by
    rw [hmap]
    simp only [evalStep]
    rw [buildInputs_four_err d _ _ _ _ hbase]
    rfl
  unfold evaluate
  rw [evalLoop.eq_def, dif_neg hcond, hstep]
  rfl

theorem legacy_nonbaseline_first_batch_index_error_witness :
    pyIn "baseline_" "data/new_wn" = false
    ∧ evaluate wModel "data/new_wn"
        (legacyTensorDataset [{ input_ids := [5], input_mask := [1], segment_ids := [0], label_id := 1 }]) 8
      = Except.error "IndexError: tuple index out of range" :=
  ⟨by decide,
   legacy_nonbaseline_first_batch_index_error wModel "data/new_wn"
     [{ input_ids := [5], input_mask := [1], segment_ids := [0], label_id := 1 }] 8
     (by decide) (by decide) (by decide)⟩

theorem accuracy_map_logits (f : List ℤ → List ℚ) :
    ∀ (ids : List (List ℤ)) (lv : List ℤ),
    accuracy (ids.map f) lv = countCorrect f ids lv := by
  intro ids
  induction ids with
  | nil => intro lv; rfl
  | cons r t ih =>
    intro lv
    cases lv with
    | nil => rfl
    | cons x xs =>
      have hx := ih xs
      simp only [accuracy, countCorrect, np_argmax_rows, List.map_cons,
        List.zip_cons_cons, List.countP_cons] at hx ⊢
      omega

theorem countCorrect_split (f : List ℤ → List ℚ) (ids : List (List ℤ)) (lv : List ℤ)
    (B : ℕ) :
    countCorrect f ids lv
      = countCorrect f (ids.take B) (lv.take B)
        + countCorrect f (ids.drop B) (lv.drop B) := by
  unfold countCorrect
  rw [← zip_take_both, ← zip_drop_both, ← List.countP_append, List.take_append_drop]

theorem batchLosses_nil (model : ModelInputs → ℚ × List (List ℚ)) (d : String) (B : ℕ)
    (ids mask seg : List (List ℤ)) (lv : List ℤ) (amb : List (List ℤ))
    (h : ids.length = 0 ∨ B = 0) :
    batchLosses model d B ids mask seg lv amb = [] := by
  rw [batchLosses.eq_def, dif_pos h]

theorem batchLosses_cons (model : ModelInputs → ℚ × List (List ℚ)) (d : String) (B : ℕ)
    (ids mask seg : List (List ℤ)) (lv : List ℤ) (amb : List (List ℤ))
    (h : ¬(ids.length = 0 ∨ B = 0)) :
    batchLosses model d B ids mask seg lv amb
      = (model (mkInputs d (Tensor.long2 (ids.take B)) (Tensor.long2 (seg.take B))
          (Tensor.long2 (mask.take B)) (Tensor.long1 (lv.take B))
          (Tensor.long2 (amb.take B)))).1
        :: batchLosses model d B (ids.drop B) (mask.drop B) (seg.drop B)
            (lv.drop B) (amb.drop B) := by
  rw [batchLosses.eq_def, dif_neg h]

theorem batchLosses_length (model : ModelInputs → ℚ × List (List ℚ)) (d : String)
    (B : ℕ) (hB : B ≠ 0) :
    ∀ (n : ℕ) (ids mask seg : List (List ℤ)) (lv : List ℤ) (amb : List (List ℤ)),
    ids.length = n →
    (batchLosses model d B ids mask seg lv amb).length = (n + B - 1) / B := by
  intro n
  induction n using Nat.strong_induction_on with
  | _ n IH =>
    intro ids mask seg lv amb hi
    by_cases hn : n = 0
    · subst hn
      rw [batchLosses_nil model d B ids mask seg lv amb (Or.inl hi)]
      symm
      apply Nat.div_eq_of_lt
      omega
    · rw [batchLosses_cons model d B ids mask seg lv amb
        (by simp only [not_or]; exact ⟨by omega, hB⟩)]
      simp only [List.length_cons]
      rw [IH (n - B) (by omega) (ids.drop B) (mask.drop B) (seg.drop B) (lv.drop B)
        (amb.drop B) (by rw [List.length_drop, hi])]
      rcases Nat.lt_or_ge n B with hlt | hge
      · rw [show n - B + B - 1 = B - 1 by omega]
        rw [Nat.div_eq_of_lt (show B - 1 < B by omega)]
        have h2 : (n + B - 1) / B = 1 := Nat.div_eq_of_lt_le (by omega) (by omega)
        omega
      · rw [show n - B + B - 1 = n - 1 by omega,
          show n + B - 1 = n - 1 + B by omega,
          Nat.add_div_right _ (by omega)]

theorem evalLoop_spec (model : ModelInputs → ℚ × List (List ℚ)) (d : String) (B : ℕ)
    (f : List ℤ → List ℚ)
    (hmodel : ∀ inputs rows, inputs.input_ids = Tensor.long2 rows →
        (model inputs).2 = rows.map f)
    (hB : B ≠ 0) :
    ∀ (n : ℕ) (ids mask seg : List (List ℤ)) (lv : List ℤ) (amb : List (List ℤ))
      (st : EvalState),
      ids.length = n → mask.length = n → seg.length = n → lv.length = n →
      amb.length = n →
      evalLoop model d B (fields5 ids mask seg lv amb) st = Except.ok
        { eval_loss := st.eval_loss + (batchLosses model d B ids mask seg lv amb).sum
          eval_accuracy := st.eval_accuracy + countCorrect f ids lv
          nb_eval_steps := st.nb_eval_steps
            + (batchLosses model d B ids mask seg lv amb).length
          nb_eval_examples := st.nb_eval_examples + n
          full_logits := if n = 0 then st.full_logits
            else some (appendO st.full_logits (ids.map f))
          full_labels := if n = 0 then st.full_labels
            else some (appendO st.full_labels lv) } := by
  intro n
  induction n using Nat.strong_induction_on with
  | _ n IH =>
    intro ids mask seg lv amb st hi hm hs hl ha
    by_cases hn : n = 0
    · subst hn
      have hids : ids = [] := List.length_eq_zero.mp hi
      rw [evalLoop.eq_def,
        dif_pos (Or.inl (by simp [fields5, datasetLen, tensorSize0, hi]))]
      rw [batchLosses_nil model d B ids mask seg lv amb (Or.inl hi)]
      subst hids
      cases st with
      | mk el ea ns ne fl flb => simp [countCorrect]
    · have hc : ¬(datasetLen (fields5 ids mask seg lv amb) = 0 ∨ B = 0) := by
        simp only [fields5, datasetLen, tensorSize0, not_or]
        exact ⟨by omega, hB⟩
      rw [evalLoop.eq_def, dif_neg hc]
      have hmt : (fields5 ids mask seg lv amb).map (takeRows B)
          = fields5 (ids.take B) (mask.take B) (seg.take B) (lv.take B) (amb.take B) := by
        simp [fields5, takeRows]
      have hmd : (fields5 ids mask seg lv amb).map (dropRows B)
          = fields5 (ids.drop B) (mask.drop B) (seg.drop B) (lv.drop B) (amb.drop B) := by
        simp [fields5, dropRows]
      rw [hmt, evalStep_fields5]
      simp only [Except.bind]
      rw [hmd]
      rw [IH (n - B) (by omega) (ids.drop B) (mask.drop B) (seg.drop B) (lv.drop B)
        (amb.drop B) _ (by rw [List.length_drop, hi]) (by rw [List.length_drop, hm])
        (by rw [List.length_drop, hs]) (by rw [List.length_drop, hl])
        (by rw [List.length_drop, ha])]
      have hml : (model (mkInputs d (Tensor.long2 (ids.take B))
          (Tensor.long2 (seg.take B)) (Tensor.long2 (mask.take B))
          (Tensor.long1 (lv.take B)) (Tensor.long2 (amb.take B)))).2
          = (ids.take B).map f := hmodel _ _ rfl
      have hblc := batchLosses_cons model d B ids mask seg lv amb
        (by simp only [not_or]; exact ⟨by omega, hB⟩)
      simp only [Except.ok.injEq, EvalState.mk.injEq]
      refine ⟨?_, ?_, ?_, ?_, ?_, ?_⟩
      · rw [hblc, List.sum_cons, add_assoc]
      · rw [hml, accuracy_map_logits, countCorrect_split f ids lv B]
        omega
      · rw [hblc, List.length_cons]
        omega
      · rw [List.length_take, hi]
        omega
      · rw [if_neg hn, hml]
        by_cases hnb : n - B = 0
        · rw [if_pos hnb, List.take_of_length_le (by omega : ids.length ≤ B)]
        · rw [if_neg hnb, appendO_some, appendO_append, ← List.map_append,
            List.take_append_drop]
      · rw [if_neg hn]
        by_cases hnb : n - B = 0
        · rw [if_pos hnb, List.take_of_length_le (by omega : lv.length ≤ B)]
        · rw [if_neg hnb, appendO_some, appendO_append, List.take_append_drop]

theorem evaluate_fields5_spec (model : ModelInputs → ℚ × List (List ℚ)) (d : String)
    (B : ℕ) (f : List ℤ → List ℚ)
    (hmodel : ∀ inputs rows, inputs.input_ids = Tensor.long2 rows →
        (model inputs).2 = rows.map f)
    (hB : B ≠ 0) (ids mask seg : List (List ℤ)) (lv : List ℤ) (amb : List (List ℤ))
    (hne : ids ≠ [])
    (hm : mask.length = ids.length) (hs : seg.length = ids.length)
    (hl : lv.length = ids.length) (ha : amb.length = ids.length) :
    evaluate model d (fields5 ids mask seg lv amb) B
      = Except.ok ((batchLosses model d B ids mask seg lv amb).sum
            / ((batchLosses model d B ids mask seg lv amb).length : ℚ),
          (countCorrect f ids lv : ℚ) / (ids.length : ℚ),
          (get_metrics (ids.map f) lv).1) := by
  have hn0 : ids.length ≠ 0 := fun h => hne (List.length_eq_zero.mp h)
  have hblc := batchLosses_cons model d B ids mask seg lv amb
    (by simp only [not_or]; exact ⟨hn0, hB⟩)
  unfold evaluate
  rw [evalLoop_spec model d B f hmodel hB ids.length ids mask seg lv amb initState
    rfl hm hs hl ha]
  rw [if_neg hn0, if_neg hn0]
  simp only [initState, appendO]
  rw [if_neg (by rw [hblc]; simp)]
  simp

/-- C1: for every evaluation run over the five-tensor dataset with a model
that computes its logits row-wise, the accuracy returned by `evaluate` equals
(number of rows whose argmax over the logits' class dimension equals the gold
label) divided by the total number of rows — a value independent of the batch
size — and in particular batch size 1 and batch size = dataset size give the
same accuracy. -/
theorem eval_accuracy_ratio_batch_size_invariant
    (model : ModelInputs → ℚ × List (List ℚ)) (f : List ℤ → List ℚ) (d : String)
    (ids mask seg : List (List ℤ)) (lv : List ℤ) (amb : List (List ℤ)) (B : ℕ)
    (hmodel : ∀ inputs rows, inputs.input_ids = Tensor.long2 rows →
        (model inputs).2 = rows.map f)
    (hB : B ≠ 0) (hne : ids ≠ [])
    (hm : mask.length = ids.length) (hs : seg.length = ids.length)
    (hl : lv.length = ids.length) (ha : amb.length = ids.length) :
    (∃ lossv f1v, evaluate model d (fields5 ids mask seg lv amb) B
        = Except.ok (lossv, (countCorrect f ids lv : ℚ) / (ids.length : ℚ), f1v))
    ∧ (∀ r1 rn, evaluate model d (fields5 ids mask seg lv amb) 1 = Except.ok r1 →
        evaluate model d (fields5 ids mask seg lv amb) ids.length = Except.ok rn →
        r1.2.1 = rn.2.1) := by
  refine ⟨⟨_, _, evaluate_fields5_spec model d B f hmodel hB ids mask seg lv amb
    hne hm hs hl ha⟩, ?_⟩
  intro r1 rn e1 en
  rw [evaluate_fields5_spec model d 1 f hmodel one_ne_zero ids mask seg lv amb
    hne hm hs hl ha] at e1
  rw [evaluate_fields5_spec model d ids.length f hmodel
    (fun h => hne (List.length_eq_zero.mp h)) ids mask seg lv amb
    hne hm hs hl ha] at en
  cases e1
  cases en
  rfl

theorem eval_accuracy_ratio_batch_size_invariant_witness :
    (∀ inputs rows, inputs.input_ids = Tensor.long2 rows →
        (wModel inputs).2 = rows.map wLogit)
    ∧ ∃ lossv f1v, evaluate wModel "data/full"
        (fields5 [[1], [2], [3]] [[1], [1], [1]] [[0], [0], [0]] [0, 1, 1]
          [[2], [2], [2]]) 2
      = Except.ok (lossv,
          (countCorrect wLogit [[1], [2], [3]] [0, 1, 1] : ℚ) / ((3 : ℕ) : ℚ), f1v) :=
  ⟨fun inputs rows h => by simp [wModel, h],
   (eval_accuracy_ratio_batch_size_invariant wModel wLogit "data/full"
     [[1], [2], [3]] [[1], [1], [1]] [[0], [0], [0]] [0, 1, 1] [[2], [2], [2]] 2
     (fun inputs rows h => by simp [wModel, h])
     (by decide) (by decide) (by decide) (by decide) (by decide) (by decide)).1⟩

/-- C3: with at least one batch, the average loss returned by `evaluate` is
the sum of the per-batch mean losses divided by the number of batches
`⌈n / B⌉` — not by the number of examples — while the accuracy is divided by
the number of examples; when the last batch is smaller the loss divisor is
still the batch count. -/
theorem eval_loss_divided_by_batch_count
    (model : ModelInputs → ℚ × List (List ℚ)) (f : List ℤ → List ℚ) (d : String)
    (ids mask seg : List (List ℤ)) (lv : List ℤ) (amb : List (List ℤ)) (B : ℕ)
    (hmodel : ∀ inputs rows, inputs.input_ids = Tensor.long2 rows →
        (model inputs).2 = rows.map f)
    (hB : B ≠ 0) (hne : ids ≠ [])
    (hm : mask.length = ids.length) (hs : seg.length = ids.length)
    (hl : lv.length = ids.length) (ha : amb.length = ids.length) :
    (∃ f1v, evaluate model d (fields5 ids mask seg lv amb) B
        = Except.ok ((batchLosses model d B ids mask seg lv amb).sum
              / ((batchLosses model d B ids mask seg lv amb).length : ℚ),
            (countCorrect f ids lv : ℚ) / (ids.length : ℚ), f1v))
    ∧ (batchLosses model d B ids mask seg lv amb).length = (ids.length + B - 1) / B :=
  ⟨⟨_, evaluate_fields5_spec model d B f hmodel hB ids mask seg lv amb
      hne hm hs hl ha⟩,
   batchLosses_length model d B hB ids.length ids mask seg lv amb rfl⟩

theorem eval_loss_divided_by_batch_count_witness :
    (∀ inputs rows, inputs.input_ids = Tensor.long2 rows →
        (wModel inputs).2 = rows.map wLogit)
    ∧ (∃ f1v, evaluate wModel "data/full"
          (fields5 [[1], [2], [3]] [[1], [1], [1]] [[0], [0], [0]] [0, 1, 1]
            [[2], [2], [2]]) 2
        = Except.ok ((batchLosses wModel "data/full" 2 [[1], [2], [3]] [[1], [1], [1]]
              [[0], [0], [0]] [0, 1, 1] [[2], [2], [2]]).sum
              / ((batchLosses wModel "data/full" 2 [[1], [2], [3]] [[1], [1], [1]]
                [[0], [0], [0]] [0, 1, 1] [[2], [2], [2]]).length : ℚ),
            (countCorrect wLogit [[1], [2], [3]] [0, 1, 1] : ℚ) / ((3 : ℕ) : ℚ), f1v))
    ∧ (batchLosses wModel "data/full" 2 [[1], [2], [3]] [[1], [1], [1]]
        [[0], [0], [0]] [0, 1, 1] [[2], [2], [2]]).length = ((3 : ℕ) + 2 - 1) / 2 :=
  ⟨fun inputs rows h => by simp [wModel, h],
   eval_loss_divided_by_batch_count wModel wLogit "data/full"
     [[1], [2], [3]] [[1], [1], [1]] [[0], [0], [0]] [0, 1, 1] [[2], [2], [2]] 2
     (fun inputs rows h => by simp [wModel, h])
     (by decide) (by decide) (by decide) (by decide) (by decide) (by decide)⟩

/-- C5: the evaluation loop draws its batches strictly sequentially over the
dataset, and the concatenated label and logit buffers built across the
batches preserve row order: after the loop the label buffer is exactly the
dataset's label column and the logit buffer is exactly the row-wise logits of
the dataset, so row `i` of the full label vector is the label of dataset
element `i` for every `i` in range. -/
theorem eval_sequential_buffers_preserve_order
    (model : ModelInputs → ℚ × List (List ℚ)) (f : List ℤ → List ℚ) (d : String)
    (ids mask seg : List (List ℤ)) (lv : List ℤ) (amb : List (List ℤ)) (B : ℕ)
    (hmodel : ∀ inputs rows, inputs.input_ids = Tensor.long2 rows →
        (model inputs).2 = rows.map f)
    (hB : B ≠ 0) (hne : ids ≠ [])
    (hm : mask.length = ids.length) (hs : seg.length = ids.length)
    (hl : lv.length = ids.length) (ha : amb.length = ids.length) :
    ∃ st, evalLoop model d B (fields5 ids mask seg lv amb) initState = Except.ok st
      ∧ st.full_labels = some lv
      ∧ st.full_logits = some (ids.map f)
      ∧ ∀ i, i < lv.length → (st.full_labels.getD []).getD i 0 = lv.getD i 0 := by
  have hn0 : ids.length ≠ 0 := fun h => hne (List.length_eq_zero.mp h)
  refine ⟨_, evalLoop_spec model d B f hmodel hB ids.length ids mask seg lv amb
    initState rfl hm hs hl ha, ?_, ?_, ?_⟩
  · dsimp only
    rw [if_neg hn0]
    rfl
  · dsimp only
    rw [if_neg hn0]
    rfl
  · intro i hi
    dsimp only
    rw [if_neg hn0]
    rfl

theorem eval_sequential_buffers_preserve_order_witness :
    (∀ inputs rows, inputs.input_ids = Tensor.long2 rows →
        (wModel inputs).2 = rows.map wLogit)
    ∧ ∃ st, evalLoop wModel "data/full" 2
        (fields5 [[1], [2], [3]] [[1], [1], [1]] [[0], [0], [0]] [0, 1, 1]
          [[2], [2], [2]]) initState = Except.ok st
      ∧ st.full_labels = some [0, 1, 1]
      ∧ st.full_logits = some ([[1], [2], [3]].map wLogit)
      ∧ ∀ i, i < [(0 : ℤ), 1, 1].length →
          (st.full_labels.getD []).getD i 0 = [(0 : ℤ), 1, 1].getD i 0 :=
  ⟨fun inputs rows h => by simp [wModel, h],
   eval_sequential_buffers_preserve_order wModel wLogit "data/full"
     [[1], [2], [3]] [[1], [1], [1]] [[0], [0], [0]] [0, 1, 1] [[2], [2], [2]] 2
     (fun inputs rows h => by simp [wModel, h])
     (by decide) (by decide) (by decide) (by decide) (by decide) (by decide)⟩
